import Mathlib

/-!
# Verification of the nununu-cloud dispatch core

Shallow embedding of `src/modules/request_queue.py` (class `RequestQueue`)
and `src/modules/worker_manager.py` (class `WorkerManager`), with theorems
settling the specification claims about them.

Modelling conventions:
* wall-clock instants (`time.time()`) are rationals `ℚ`, passed explicitly
  as a `now` parameter wherever the Python code reads the clock;
* a per-request `asyncio.Queue` result channel is the list of events pushed
  into it so far, stored with the tracked record; operations that push
  events after removing records return the delivered channel contents;
* the tracker's single `asyncio.Lock` is *non-reentrant*: an operation that
  tries to acquire it while it is already held by the same task blocks
  forever.  Lock-acquiring tracker operations therefore take a `lockHeld`
  flag and return `Option _`, with `none` meaning the call never returns
  (deadlock).  The registry's `threading.RLock` is reentrant, so registry
  operations need no such flag.
-/

namespace NunuCloud

/-- An event pushed into a request's result channel
(`response_queue.put(...)` in the Python code). -/
inductive Event where
  /-- `{"error": f"Request timed out after {timeout_seconds} seconds"}` -/
  | timeoutError (timeout_seconds : ℤ) : Event
  /-- `{"error": "Server is shutting down"}` -/
  | shutdownError : Event
  /-- the end-of-stream marker `"[DONE]"` -/
  | done : Event
  deriving DecidableEq, Repr

/-- `QueuedRequest` dataclass from `request_queue.py`.  The `response_queue`
field holds the events pushed into the request's result channel so far. -/
structure QueuedRequest where
  request_id : String
  payload : String
  model_name : String
  created_at : ℚ
  timeout_seconds : ℤ
  response_queue : List Event
  assigned_worker_id : Option String := none
  deriving DecidableEq, Repr

/-- `QueuedRequest.is_expired`: `time.time() - self.created_at > self.timeout_seconds`. -/
def QueuedRequest.is_expired (now : ℚ) (r : QueuedRequest) : Bool :=
  decide (now - r.created_at > (r.timeout_seconds : ℚ))

/-- `QueuedRequest.wait_time`: `time.time() - self.created_at`. -/
def QueuedRequest.wait_time (now : ℚ) (r : QueuedRequest) : ℚ :=
  now - r.created_at

/-- The mutable state of a `RequestQueue` instance: the `self._requests`
dict (as an insertion-ordered association list) together with the
configuration values and lifetime counters read in `__init__`. -/
structure RQState where
  max_wait_seconds : ℤ
  reject_when_no_workers : Bool
  requests : List QueuedRequest
  total_requests : ℕ
  total_timeouts : ℕ
  total_completed : ℕ
  deriving DecidableEq, Repr

/-- A freshly constructed `RequestQueue` (`__init__`): empty dict, zero
counters, configuration as given. -/
def RQState.init (max_wait : ℤ) (reject : Bool) : RQState :=
  { max_wait_seconds := max_wait
    reject_when_no_workers := reject
    requests := []
    total_requests := 0
    total_timeouts := 0
    total_completed := 0 }

/-- `self._requests.get(request_id)`: first (and, for dict states, only)
record with the given id. -/
def RQState.find (st : RQState) (rid : String) : Option QueuedRequest :=
  st.requests.find? (fun r => r.request_id == rid)

/-- Python dict assignment `self._requests[request_id] = q`: if the key is
present the value is replaced in place (keeping its position), otherwise
the new entry is appended. -/
def dictInsert (l : List QueuedRequest) (rid : String) (q : QueuedRequest) :
    List QueuedRequest :=
  if l.any (fun r => r.request_id == rid) then
    l.map (fun r => if r.request_id == rid then q else r)
  else
    l ++ [q]

/-- `RequestQueue.add_request`: builds a `QueuedRequest` with
`created_at = now` and the default timeout when none is supplied, stores it
under `request_id` (Python dict assignment — an existing entry with the
same key is silently overwritten), and increments `self._total_requests`.
Returns the created record and the new state. -/
def add_request (st : RQState) (rid payload model : String) (now : ℚ)
    (timeout_seconds : Option ℤ) : QueuedRequest × RQState :=
  let t := timeout_seconds.getD st.max_wait_seconds
  let q : QueuedRequest :=
    { request_id := rid
      payload := payload
      model_name := model
      created_at := now
      timeout_seconds := t
      response_queue := []
      assigned_worker_id := none }
  (q, { st with
          requests := dictInsert st.requests rid q
          total_requests := st.total_requests + 1 })

/-- `RequestQueue.remove_request`.  It begins with `async with self._lock`;
if the (non-reentrant) lock is already held by the caller this never
returns, modelled as `none`.  Otherwise: `false` if the id is unknown;
else the record is deleted and the lifetime counters updated
(`timeout` takes precedence over `completed`). -/
def remove_request (lockHeld : Bool) (st : RQState) (rid : String)
    (completed timeout : Bool) : Option (Bool × RQState) :=
  if lockHeld then none
  else if st.requests.any (fun r => r.request_id == rid) then
    let st' := { st with requests := st.requests.filter (fun r => !(r.request_id == rid)) }
    if timeout then
      some (true, { st' with total_timeouts := st.total_timeouts + 1 })
    else if completed then
      some (true, { st' with total_completed := st.total_completed + 1 })
    else
      some (true, st')
  else
    some (false, st)

/-- Append events to the result channel of the record with the given id
(`await request.response_queue.put(...)`). -/
def pushEvents (st : RQState) (rid : String) (evs : List Event) : RQState :=
  { st with
      requests := st.requests.map (fun r =>
        if r.request_id == rid then
          { r with response_queue := r.response_queue ++ evs }
        else r) }

/-- The `for req_id in expired_ids` loop body of
`RequestQueue.cleanup_expired_requests`: look the record up, push the
timeout error and the `"[DONE]"` marker into its channel, then call
`remove_request` — with the tracker's lock still held by the loop
(`lockHeld := true`), so that nested call never returns. -/
def cleanupLoop (st : RQState) : List String → Option RQState
  | [] => some st
  | rid :: rest =>
      match st.find rid with
      | none => cleanupLoop st rest
      | some r =>
          let st₁ := pushEvents st rid [Event.timeoutError r.timeout_seconds, Event.done]
          match remove_request true st₁ rid false true with
          | none => none
          | some (_, st₂) => cleanupLoop st₂ rest

/-- `RequestQueue.cleanup_expired_requests`: under the lock, collect the
ids of all expired records, then run the removal loop; returns the number
of collected ids.  `none` models the call never returning. -/
def cleanup_expired_requests (now : ℚ) (st : RQState) : Option (ℕ × RQState) :=
  let expired_ids :=
    (st.requests.filter (fun r => r.is_expired now)).map (fun r => r.request_id)
  (cleanupLoop st expired_ids).map (fun st' => (expired_ids.length, st'))

/-- `RequestQueue.clear_all`: under the lock, push a shutdown error and the
`"[DONE]"` marker into every tracked request's channel, then clear the
dict.  Returns the final contents of each formerly tracked request's
result channel (keyed by request id, in tracking order) and the new
state. -/
def clear_all (st : RQState) : List (String × List Event) × RQState :=
  let pushed := st.requests.map (fun r =>
    { r with response_queue := r.response_queue ++ [Event.shutdownError, Event.done] })
  (pushed.map (fun r => (r.request_id, r.response_queue)),
   { st with requests := [] })

/-! ## Worker manager (`src/modules/worker_manager.py`) -/

/-- `Worker` dataclass from `worker_manager.py`.  `status` is the literal
Python string (`"idle"`, `"busy"`, `"offline"`); the opaque WebSocket
object is an abstract handle. -/
structure Worker where
  worker_id : String
  auth_token : String
  websocket : ℕ
  status : String := "idle"
  connected_at : ℚ
  last_heartbeat : ℚ
  current_request_id : Option String := none
  requests_processed : ℕ := 0
  total_processing_time : ℚ := 0
  last_error : Option String := none
  deriving DecidableEq, Repr

/-- `Worker.avg_response_time`: `0.0` when no request has been processed,
else `total_processing_time / requests_processed`. -/
def Worker.avg_response_time (w : Worker) : ℚ :=
  if w.requests_processed = 0 then 0
  else w.total_processing_time / (w.requests_processed : ℚ)

/-- `Worker.is_healthy`: `time.time() - self.last_heartbeat < 120`.  The
`120` is a literal in the source; the configured
`worker_timeout_seconds` is not consulted here. -/
def Worker.is_healthy (now : ℚ) (w : Worker) : Bool :=
  decide (now - w.last_heartbeat < 120)

/-- The configuration values `WorkerManager.__init__` reads from `config`.
`worker_timeout_seconds` is stored (as `self._heartbeat_timeout`) but never
used by any operation in the source. -/
structure WMConfig where
  max_workers : ℕ
  worker_timeout_seconds : ℤ
  require_authentication : Bool
  valid_tokens : List String
  deriving DecidableEq, Repr

/-- `WorkerManager.authenticate_worker`: always true when authentication is
disabled, otherwise membership in the valid-token set. -/
def authenticate_worker (cfg : WMConfig) (tok : String) : Bool :=
  if !cfg.require_authentication then true
  else cfg.valid_tokens.contains tok

/-- The mutable state of a `WorkerManager` instance: the `self.workers`
dict as an insertion-ordered association list. -/
structure WMState where
  workers : List Worker
  deriving DecidableEq, Repr

/-- ids of the live pool, in insertion order. -/
def WMState.ids (st : WMState) : List String :=
  st.workers.map (fun w => w.worker_id)

/-- `self.workers.get(worker_id)`. -/
def WMState.findWorker (st : WMState) (wid : String) : Option Worker :=
  st.workers.find? (fun w => w.worker_id == wid)

/-- `WorkerManager.register_worker`: under the lock, fail if the pool is at
capacity, then if the id already exists, then if authentication fails;
otherwise insert a fresh idle worker with
`connected_at = last_heartbeat = now`.  Returns `((ok, message), state)`. -/
def register_worker (cfg : WMConfig) (now : ℚ) (st : WMState)
    (wid tok : String) (ws : ℕ) : (Bool × String) × WMState :=
  if st.workers.length ≥ cfg.max_workers then
    ((false, "Maximum worker limit reached"), st)
  else if st.workers.any (fun w => w.worker_id == wid) then
    ((false, "Worker ID is already registered"), st)
  else if !authenticate_worker cfg tok then
    ((false, "Invalid authentication token"), st)
  else
    ((true, "Worker registered successfully"),
     { workers := st.workers ++
        [{ worker_id := wid
           auth_token := tok
           websocket := ws
           status := "idle"
           connected_at := now
           last_heartbeat := now }] })

/-- `WorkerManager.unregister_worker`: delete the worker if present
(`true`), else `false`. -/
def unregister_worker (st : WMState) (wid : String) : Bool × WMState :=
  if st.workers.any (fun w => w.worker_id == wid) then
    (true, { workers := st.workers.filter (fun w => !(w.worker_id == wid)) })
  else
    (false, st)

/-- Python's `min(xs, key=f)`: the first element attaining the minimal
key (later elements replace the accumulator only when strictly smaller). -/
def minByAvg : Worker → List Worker → Worker
  | w, [] => w
  | w, x :: xs =>
      minByAvg (if x.avg_response_time < w.avg_response_time then x else w) xs

/-- `WorkerManager.get_available_worker`: among workers that are `"idle"`
and healthy, return the one with least `avg_response_time` (`none` when no
such worker exists).  Reads state only; mutates nothing. -/
def get_available_worker (now : ℚ) (st : WMState) : Option Worker :=
  match st.workers.filter (fun w => w.status == "idle" && w.is_healthy now) with
  | [] => none
  | w :: ws => some (minByAvg w ws)

/-- `WorkerManager.mark_worker_busy`: set `status = "busy"` and
`current_request_id`; `false` if the worker is unknown. -/
def mark_worker_busy (st : WMState) (wid rid : String) : Bool × WMState :=
  if st.workers.any (fun w => w.worker_id == wid) then
    (true, { workers := st.workers.map (fun w =>
        if w.worker_id == wid then
          { w with status := "busy", current_request_id := some rid }
        else w) })
  else
    (false, st)

/-- `WorkerManager.mark_worker_idle`: set `status = "idle"`, increment
`requests_processed`, accumulate `total_processing_time`, clear
`current_request_id`, record `last_error`; `false` if the worker is
unknown. -/
def mark_worker_idle (st : WMState) (wid : String) (processing_time : ℚ)
    (error : Option String) : Bool × WMState :=
  if st.workers.any (fun w => w.worker_id == wid) then
    (true, { workers := st.workers.map (fun w =>
        if w.worker_id == wid then
          { w with status := "idle"
                   requests_processed := w.requests_processed + 1
                   total_processing_time := w.total_processing_time + processing_time
                   current_request_id := none
                   last_error := error }
        else w) })
  else
    (false, st)

/-- `WorkerManager.update_heartbeat`: refresh `last_heartbeat`; `false` if
the worker is unknown. -/
def update_heartbeat (now : ℚ) (st : WMState) (wid : String) : Bool × WMState :=
  if st.workers.any (fun w => w.worker_id == wid) then
    (true, { workers := st.workers.map (fun w =>
        if w.worker_id == wid then { w with last_heartbeat := now } else w) })
  else
    (false, st)

/-- `WorkerManager.cleanup_unhealthy_workers`: under the (reentrant) lock,
collect the ids of all unhealthy workers, unregister each, and return how
many ids were collected. -/
def cleanup_unhealthy_workers (now : ℚ) (st : WMState) : ℕ × WMState :=
  let unhealthy_ids :=
    (st.workers.filter (fun w => !(w.is_healthy now))).map (fun w => w.worker_id)
  (unhealthy_ids.length,
   unhealthy_ids.foldl (fun s i => (unregister_worker s i).2) st)

/-- A pool operation, for reasoning about arbitrary sequences of
registrations and unregistrations. -/
inductive WMOp where
  | register (now : ℚ) (wid tok : String) (ws : ℕ) : WMOp
  | unregister (wid : String) : WMOp
  deriving DecidableEq, Repr

/-- Apply one pool operation to a `WorkerManager` state. -/
def applyOp (cfg : WMConfig) (st : WMState) : WMOp → WMState
  | .register now wid tok ws => (register_worker cfg now st wid tok ws).2
  | .unregister wid => (unregister_worker st wid).2

/-- Run a sequence of pool operations starting from the empty pool
(a freshly constructed `WorkerManager`). -/
def runOps (cfg : WMConfig) (ops : List WMOp) : WMState :=
  ops.foldl (applyOp cfg) { workers := [] }

/-! ## Helper lemmas -/

theorem find?_map_ite (l : List QueuedRequest) (rid : String) (q : QueuedRequest)
    (hq : q.request_id = rid) (hl : l.any (fun r => r.request_id == rid) = true) :
    (l.map (fun r => if r.request_id == rid then q else r)).find?
        (fun r => r.request_id == rid) = some q := by
  induction l with
  | nil => simp at hl
  | cons x xs ih =>
      simp only [List.map_cons]
      by_cases hx : (x.request_id == rid) = true
      · rw [if_pos hx,
            List.find?_cons_of_pos (p := fun r : QueuedRequest => r.request_id == rid) _ (by simp [hq])]
      · rw [if_neg hx,
            List.find?_cons_of_neg (p := fun r : QueuedRequest => r.request_id == rid) _ hx]
        simp only [List.any_cons, Bool.or_eq_true] at hl
        rcases hl with hl | hl
        · exact absurd hl hx
        · exact ih hl

theorem find?_append_single (l : List QueuedRequest) (rid : String) (q : QueuedRequest)
    (hq : q.request_id = rid) (hl : l.any (fun r => r.request_id == rid) = false) :
    (l ++ [q]).find? (fun r => r.request_id == rid) = some q := by
  induction l with
  | nil => simp [List.find?_cons, hq]
  | cons x xs ih =>
      simp only [List.any_cons, Bool.or_eq_false_iff] at hl
      simp [List.find?_cons, hl.1, ih hl.2]

theorem find?_dictInsert (l : List QueuedRequest) (rid : String) (q : QueuedRequest)
    (hq : q.request_id = rid) :
    (dictInsert l rid q).find? (fun r => r.request_id == rid) = some q := by
  unfold dictInsert
  by_cases hl : l.any (fun r => r.request_id == rid)
  · simpa [hl] using find?_map_ite l rid q hq hl
  · simpa [hl] using find?_append_single l rid q hq (by simpa using hl)

theorem dictInsert_length (l : List QueuedRequest) (rid : String) (q : QueuedRequest) :
    (dictInsert l rid q).length =
      if l.any (fun r => r.request_id == rid) then l.length else l.length + 1 := by
  unfold dictInsert
  by_cases hl : l.any (fun r => r.request_id == rid) <;> simp [hl]

theorem dictInsert_mem_of_id (l : List QueuedRequest) (rid : String) (q r : QueuedRequest)
    (hr : r ∈ dictInsert l rid q) (hid : r.request_id = rid) :
    r = q := by
  unfold dictInsert at hr
  by_cases hl : l.any (fun r => r.request_id == rid)
  · rw [if_pos hl] at hr
    obtain ⟨a, _, ha⟩ := List.mem_map.mp hr
    by_cases hmatch : a.request_id == rid
    · simpa [hmatch] using ha.symm
    · rw [← ha] at hid
      simp [hmatch] at hid
      exact absurd hid (by simpa using hmatch)
  · rw [if_neg hl] at hr
    rcases List.mem_append.mp hr with hr | hr
    · exfalso
      have : l.any (fun r => r.request_id == rid) = true :=
        List.any_eq_true.mpr ⟨r, hr, by simp [hid]⟩
      simp [this] at hl
    · simpa using hr

/-! ## C1: duplicate request ids in `add_request` -/

/-- **C1.** The claim says a `track` (`add_request`) call with an id that is
already tracked is rejected, leaving the existing record in place.  The
code performs a plain dict assignment with no duplicate check:
counterexample — after tracking `"r1"` with payload `"A"`, a second
`add_request` for `"r1"` with payload `"B"` is accepted, the stored record
is the new one, and the original record is discarded from tracking. -/
theorem add_request_retrack_not_rejected :
    (add_request (add_request (RQState.init 60 true) "r1" "A" "m" 0 none).2
        "r1" "B" "m" 1 none).2.find "r1"
      = some { request_id := "r1", payload := "B", model_name := "m",
               created_at := 1, timeout_seconds := 60, response_queue := [],
               assigned_worker_id := none } ∧
    ({ request_id := "r1", payload := "A", model_name := "m",
       created_at := 0, timeout_seconds := 60, response_queue := [],
       assigned_worker_id := none } : QueuedRequest)
      ∉ (add_request (add_request (RQState.init 60 true) "r1" "A" "m" 0 none).2
          "r1" "B" "m" 1 none).2.requests ∧
    (add_request (add_request (RQState.init 60 true) "r1" "A" "m" 0 none).2
        "r1" "B" "m" 1 none).2.requests.length = 1 := by
  norm_num [add_request, RQState.init, RQState.find, dictInsert, List.find?]

/-- **C1 (amended).** `add_request` accepts any caller-supplied id
unconditionally: it returns the freshly built record, stores it under the
id — silently replacing (not preserving) any record previously tracked
under the same id — and increments the lifetime request counter.
Uniqueness of ids is the caller's responsibility and is not enforced. -/
theorem add_request_overwrites (st : RQState) (rid p m : String) (now : ℚ)
    (tmo : Option ℤ) :
    (add_request st rid p m now tmo).1
      = { request_id := rid, payload := p, model_name := m, created_at := now,
          timeout_seconds := tmo.getD st.max_wait_seconds, response_queue := [],
          assigned_worker_id := none } ∧
    (add_request st rid p m now tmo).2.find rid = some (add_request st rid p m now tmo).1 ∧
    (add_request st rid p m now tmo).2.total_requests = st.total_requests + 1 ∧
    (add_request st rid p m now tmo).2.requests.length
      = (if st.requests.any (fun r => r.request_id == rid) then st.requests.length
         else st.requests.length + 1) ∧
    ∀ r ∈ (add_request st rid p m now tmo).2.requests, r.request_id = rid →
      r = (add_request st rid p m now tmo).1 := by
  refine ⟨rfl, ?_, rfl, ?_, ?_⟩
  · exact find?_dictInsert st.requests rid _ rfl
  · exact dictInsert_length st.requests rid _
  · intro r hr hid
    exact dictInsert_mem_of_id st.requests rid _ r hr hid

/-- **C1 (witness).** The amended theorem applied to a concrete re-track:
the second record for `"x"` is stored and counted. -/
theorem add_request_overwrites_witness :
    (add_request (add_request (RQState.init 60 true) "x" "p" "m" 0 none).2
        "x" "p2" "m" 2 none).2.total_requests = 2 := by
  have h := add_request_overwrites
    (add_request (RQState.init 60 true) "x" "p" "m" 0 none).2 "x" "p2" "m" 2 none
  rw [h.2.2.1]
  norm_num [add_request, RQState.init]

/-! ## C4, C5, C6: the expiry sweep -/

/-- **C4.** The claim says every `cleanup_expired_requests` call terminates
and returns, including when an expired request is present — in particular
that the nested `remove_request` call completes.  In the code,
`cleanup_expired_requests` holds the tracker's single non-reentrant
`asyncio.Lock` for its whole body and `remove_request` re-acquires that
same lock, so the first expired request makes the sweep block forever:
whenever the state contains an expired request, the call never returns
(`none` in the embedding). -/
theorem cleanup_expired_deadlock (now : ℚ) (st : RQState)
    (h : ∃ r ∈ st.requests, r.is_expired now = true) :
    cleanup_expired_requests now st = none := by
  obtain ⟨r, hr, hexp⟩ := h
  have hmem : r ∈ st.requests.filter (fun r => r.is_expired now) :=
    List.mem_filter.mpr ⟨hr, hexp⟩
  unfold cleanup_expired_requests
  cases hids : (st.requests.filter (fun r => r.is_expired now)).map
      (fun r => r.request_id) with
  | nil =>
      rw [List.map_eq_nil_iff] at hids
      rw [hids] at hmem
      exact absurd hmem (List.not_mem_nil r)
  | cons i rest =>
      have hi : i ∈ (st.requests.filter (fun r => r.is_expired now)).map
          (fun r => r.request_id) := by
        rw [hids]; exact List.mem_cons_self i rest
      obtain ⟨a, ha, hai⟩ := List.mem_map.mp hi
      have hfind : (st.find i).isSome := by
        apply List.find?_isSome.mpr
        exact ⟨a, List.mem_of_mem_filter ha, by simp [hai]⟩
      obtain ⟨x, hx⟩ := Option.isSome_iff_exists.mp hfind
      have hloop : cleanupLoop st (i :: rest) = none := by
        unfold cleanupLoop
        rw [hx]
        simp [remove_request]
      simp [hloop]

/-- **C4 (witness).** A tracker holding one request tracked at `t = 0` with
a 5-second timeout, swept at `t = 10`: the sweep never returns. -/
theorem cleanup_expired_deadlock_witness :
    cleanup_expired_requests 10
      { max_wait_seconds := 60, reject_when_no_workers := true,
        requests := [{ request_id := "r1", payload := "p", model_name := "m",
                       created_at := 0, timeout_seconds := 5, response_queue := [],
                       assigned_worker_id := none }],
        total_requests := 1, total_timeouts := 0, total_completed := 0 } = none :=
  cleanup_expired_deadlock 10 _
    ⟨{ request_id := "r1", payload := "p", model_name := "m",
       created_at := 0, timeout_seconds := 5, response_queue := [],
       assigned_worker_id := none },
     by simp, by norm_num [QueuedRequest.is_expired]⟩

/-- **C5.** The claim says the sweep removes exactly the expired requests
(outcome `timedOut`, bumping the timeout counter, delivering a
timeout-error event and an end marker) and returns the number removed,
leaving unexpired records untouched.  What the code does: on a tracker
with an expired request (tracked at `t = 0`, timeout 30, swept at
`t = 100`) the sweep never returns — it blocks forever re-acquiring the
non-reentrant lock inside `remove_request` — so nothing is removed, no
count is returned and no counter is bumped.  Only the part about
unexpired records holds: a record tracked 10 s before a sweep with a
30-second timeout is left untouched and the sweep returns 0. -/
theorem cleanup_expired_divergence :
    cleanup_expired_requests 100
      { max_wait_seconds := 60, reject_when_no_workers := true,
        requests := [{ request_id := "a", payload := "p", model_name := "m",
                       created_at := 0, timeout_seconds := 30, response_queue := [],
                       assigned_worker_id := none }],
        total_requests := 1, total_timeouts := 0, total_completed := 0 } = none ∧
    cleanup_expired_requests 100
      { max_wait_seconds := 60, reject_when_no_workers := true,
        requests := [{ request_id := "b", payload := "p", model_name := "m",
                       created_at := 90, timeout_seconds := 30, response_queue := [],
                       assigned_worker_id := none }],
        total_requests := 1, total_timeouts := 0, total_completed := 0 }
      = some (0,
        { max_wait_seconds := 60, reject_when_no_workers := true,
          requests := [{ request_id := "b", payload := "p", model_name := "m",
                         created_at := 90, timeout_seconds := 30, response_queue := [],
                         assigned_worker_id := none }],
          total_requests := 1, total_timeouts := 0, total_completed := 0 }) := by
  constructor
  · norm_num [cleanup_expired_requests, QueuedRequest.is_expired, cleanupLoop,
      RQState.find, List.find?, pushEvents, remove_request]
  · norm_num [cleanup_expired_requests, QueuedRequest.is_expired, cleanupLoop,
      RQState.find, List.find?, pushEvents, remove_request]

/-- **C6.** The claim says a request tracked with `timeoutSeconds = 0` is
expired at the very moment it is tracked, so an immediately following
sweep removes it and delivers a timeout error plus end marker.
Counterexample: `is_expired` uses a strict comparison
(`now − createdAt > timeoutSeconds`), so at the tracking instant
(`now − createdAt = 0`) the request is *not* expired — the immediate sweep
removes nothing, the state is unchanged, the record is still tracked, and
its result channel is empty. -/
theorem sweep_immediate_zero_timeout_noop :
    (add_request (RQState.init 60 true) "r1" "p" "m" 5 (some 0)).1.is_expired 5 = false ∧
    cleanup_expired_requests 5 (add_request (RQState.init 60 true) "r1" "p" "m" 5 (some 0)).2
      = some (0, (add_request (RQState.init 60 true) "r1" "p" "m" 5 (some 0)).2) ∧
    (add_request (RQState.init 60 true) "r1" "p" "m" 5 (some 0)).2.find "r1"
      = some (add_request (RQState.init 60 true) "r1" "p" "m" 5 (some 0)).1 ∧
    (add_request (RQState.init 60 true) "r1" "p" "m" 5 (some 0)).1.response_queue = [] := by
  refine ⟨?_, ?_, ?_, rfl⟩
  · norm_num [add_request, QueuedRequest.is_expired]
  · norm_num [add_request, RQState.init, dictInsert, cleanup_expired_requests,
      QueuedRequest.is_expired, cleanupLoop]
  · norm_num [add_request, RQState.init, dictInsert, RQState.find, List.find?]

/-- **C6 (amended).** A request tracked with `timeoutSeconds = 0` on a
fresh tracker is *not yet* expired at the instant it is tracked (expiry
requires `now − createdAt` strictly greater than `timeoutSeconds`), so an
immediately following sweep at that instant removes nothing and leaves the
tracker unchanged; the request is expired at every strictly later
instant. -/
theorem track_zero_timeout_strict_expiry (mw : ℤ) (rj : Bool) (rid p m : String)
    (now now' : ℚ) (h : now < now') :
    (add_request (RQState.init mw rj) rid p m now (some 0)).1.is_expired now = false ∧
    cleanup_expired_requests now (add_request (RQState.init mw rj) rid p m now (some 0)).2
      = some (0, (add_request (RQState.init mw rj) rid p m now (some 0)).2) ∧
    (add_request (RQState.init mw rj) rid p m now (some 0)).1.is_expired now' = true := by
  refine ⟨?_, ?_, ?_⟩
  · simp [add_request, QueuedRequest.is_expired]
  · simp [add_request, RQState.init, dictInsert, cleanup_expired_requests,
      QueuedRequest.is_expired, cleanupLoop]
  · simp [add_request, QueuedRequest.is_expired]
    linarith

/-- **C6 (amended, witness).** Tracked at `t = 5` with timeout 0: not
expired at `t = 5`, the sweep at `t = 5` is a no-op, expired at `t = 6`. -/
theorem track_zero_timeout_strict_expiry_witness :
    (add_request (RQState.init 60 true) "z" "p" "m" 5 (some 0)).1.is_expired 5 = false ∧
    cleanup_expired_requests 5 (add_request (RQState.init 60 true) "z" "p" "m" 5 (some 0)).2
      = some (0, (add_request (RQState.init 60 true) "z" "p" "m" 5 (some 0)).2) ∧
    (add_request (RQState.init 60 true) "z" "p" "m" 5 (some 0)).1.is_expired 6 = true :=
  track_zero_timeout_strict_expiry 60 true "z" "p" "m" 5 6 (by norm_num)

/-! ## C10: shutdown drain -/

/-- **C10.** `clear_all` on a tracker with `N` active requests delivers
exactly one shutdown-error event followed by one end-of-stream marker into
each of the `N` result channels (each delivered channel is its former
contents with exactly the pair `[shutdownError, done]` appended, no more,
no less), then empties the tracker to zero active requests, leaving the
lifetime counters alone; with `N = 0` it is a no-op. -/
theorem clear_all_spec (st : RQState) :
    (clear_all st).2.requests = [] ∧
    (clear_all st).1.length = st.requests.length ∧
    (∀ pr ∈ (clear_all st).1, ∃ r ∈ st.requests,
        pr = (r.request_id, r.response_queue ++ [Event.shutdownError, Event.done])) ∧
    (∀ r ∈ st.requests,
        (r.request_id, r.response_queue ++ [Event.shutdownError, Event.done])
          ∈ (clear_all st).1) ∧
    (st.requests = [] → (clear_all st).1 = [] ∧ (clear_all st).2 = st) ∧
    (clear_all st).2.total_requests = st.total_requests ∧
    (clear_all st).2.total_timeouts = st.total_timeouts ∧
    (clear_all st).2.total_completed = st.total_completed := by
  refine ⟨rfl, by simp [clear_all], ?_, ?_, ?_, rfl, rfl, rfl⟩
  · intro pr hpr
    simp only [clear_all, List.map_map, List.mem_map] at hpr
    obtain ⟨r, hr, hpr⟩ := hpr
    exact ⟨r, hr, hpr.symm⟩
  · intro r hr
    simp only [clear_all, List.map_map, List.mem_map]
    exact ⟨r, hr, rfl⟩
  · intro h
    refine ⟨by simp [clear_all, h], ?_⟩
    cases st
    simp_all [clear_all]

/-- **C10 (witness).** Two tracked requests, one with a non-empty channel:
both delivered channels end with the shutdown-error/end-marker pair and
the tracker is emptied. -/
theorem clear_all_spec_witness :
    (clear_all
      { max_wait_seconds := 60, reject_when_no_workers := true,
        requests := [{ request_id := "a", payload := "p", model_name := "m",
                       created_at := 0, timeout_seconds := 60,
                       response_queue := [Event.done], assigned_worker_id := none },
                     { request_id := "b", payload := "q", model_name := "m",
                       created_at := 1, timeout_seconds := 60, response_queue := [],
                       assigned_worker_id := none }],
        total_requests := 2, total_timeouts := 0, total_completed := 0 }).2.requests = [] ∧
    ("a", [Event.done, Event.shutdownError, Event.done]) ∈
      (clear_all
        { max_wait_seconds := 60, reject_when_no_workers := true,
          requests := [{ request_id := "a", payload := "p", model_name := "m",
                         created_at := 0, timeout_seconds := 60,
                         response_queue := [Event.done], assigned_worker_id := none },
                       { request_id := "b", payload := "q", model_name := "m",
                         created_at := 1, timeout_seconds := 60, response_queue := [],
                         assigned_worker_id := none }],
          total_requests := 2, total_timeouts := 0, total_completed := 0 }).1 := by
  constructor
  · exact (clear_all_spec _).1
  · exact (clear_all_spec _).2.2.2.1
      { request_id := "a", payload := "p", model_name := "m", created_at := 0,
        timeout_seconds := 60, response_queue := [Event.done],
        assigned_worker_id := none } (by simp)

/-! ## C3: worker selection -/

theorem minByAvg_spec (ws : List Worker) : ∀ w : Worker,
    (minByAvg w ws = w ∨ minByAvg w ws ∈ ws) ∧
    (minByAvg w ws).avg_response_time ≤ w.avg_response_time ∧
    ∀ x ∈ ws, (minByAvg w ws).avg_response_time ≤ x.avg_response_time := by
  induction ws with
  | nil => intro w; simp [minByAvg]
  | cons y ys ih =>
      intro w
      by_cases hy : y.avg_response_time < w.avg_response_time
      · obtain ⟨hmem, hle, hall⟩ := ih y
        have hred : minByAvg w (y :: ys) = minByAvg y ys := by simp [minByAvg, hy]
        refine ⟨?_, ?_, ?_⟩
        · rw [hred]
          rcases hmem with h | h
          · right; rw [h]; exact List.mem_cons_self y ys
          · right; exact List.mem_cons_of_mem y h
        · rw [hred]; exact le_trans hle (le_of_lt hy)
        · intro x hx
          rw [hred]
          rcases List.mem_cons.mp hx with h | h
          · rw [h]; exact hle
          · exact hall x h
      · obtain ⟨hmem, hle, hall⟩ := ih w
        have hred : minByAvg w (y :: ys) = minByAvg w ys := by simp [minByAvg, hy]
        refine ⟨?_, ?_, ?_⟩
        · rw [hred]
          rcases hmem with h | h
          · left; exact h
          · right; exact List.mem_cons_of_mem y h
        · rw [hred]; exact hle
        · intro x hx
          rw [hred]
          rcases List.mem_cons.mp hx with h | h
          · rw [h]; exact le_trans hle (not_lt.mp hy)
          · exact hall x h

/-- **C3.** `get_available_worker` returns a worker only if that worker is
registered, has status `"idle"` and is healthy, and its average response
time is minimal among all idle healthy workers; it returns `none` exactly
when no idle healthy worker exists.  (In the embedding the operation is a
pure function of the state — it performs no writes, matching the claim
that selection mutates no registry state.) -/
theorem get_available_worker_spec (now : ℚ) (st : WMState) :
    (∀ w, get_available_worker now st = some w →
        w ∈ st.workers ∧ w.status = "idle" ∧ w.is_healthy now = true ∧
        ∀ w' ∈ st.workers, w'.status = "idle" → w'.is_healthy now = true →
          w.avg_response_time ≤ w'.avg_response_time) ∧
    (get_available_worker now st = none ↔
        ∀ w ∈ st.workers, ¬(w.status = "idle" ∧ w.is_healthy now = true)) := by
  constructor
  · intro w hw
    unfold get_available_worker at hw
    cases hfil : st.workers.filter (fun w => w.status == "idle" && w.is_healthy now) with
    | nil => rw [hfil] at hw; exact absurd hw (by simp)
    | cons y ys =>
        rw [hfil] at hw
        simp only [Option.some.injEq] at hw
        subst hw
        obtain ⟨hmem, hle, hall⟩ := minByAvg_spec ys y
        have hminmem : minByAvg y ys ∈ y :: ys := by
          rcases hmem with h | h
          · rw [h]; exact List.mem_cons_self y ys
          · exact List.mem_cons_of_mem y h
        have hmemfil : minByAvg y ys
            ∈ st.workers.filter (fun w => w.status == "idle" && w.is_healthy now) := by
          rw [hfil]; exact hminmem
        have hmem' := List.mem_filter.mp hmemfil
        have hpred := hmem'.2
        rw [Bool.and_eq_true] at hpred
        refine ⟨hmem'.1, by simpa using hpred.1, hpred.2, ?_⟩
        intro w' hw' hst hhl
        have hw'fil : w' ∈ st.workers.filter
            (fun w => w.status == "idle" && w.is_healthy now) :=
          List.mem_filter.mpr ⟨hw', by simp [hst, hhl]⟩
        rw [hfil] at hw'fil
        rcases List.mem_cons.mp hw'fil with h | h
        · rw [h]; exact hle
        · exact hall w' h
  · constructor
    · intro hnone w hw hcond
      unfold get_available_worker at hnone
      have hwfil : w ∈ st.workers.filter
          (fun w => w.status == "idle" && w.is_healthy now) :=
        List.mem_filter.mpr ⟨hw, by simp [hcond.1, hcond.2]⟩
      cases hfil : st.workers.filter (fun w => w.status == "idle" && w.is_healthy now) with
      | nil => rw [hfil] at hwfil; exact absurd hwfil (List.not_mem_nil w)
      | cons y ys => rw [hfil] at hnone; exact absurd hnone (by simp)
    · intro h
      unfold get_available_worker
      cases hfil : st.workers.filter (fun w => w.status == "idle" && w.is_healthy now) with
      | nil => rfl
      | cons y ys =>
          exfalso
          have hy : y ∈ st.workers.filter
              (fun w => w.status == "idle" && w.is_healthy now) := by
            rw [hfil]; exact List.mem_cons_self y ys
          have hy' := List.mem_filter.mp hy
          have hpred := hy'.2
          rw [Bool.and_eq_true] at hpred
          exact h y hy'.1 ⟨by simpa using hpred.1, hpred.2⟩

/-- **C3 (witness).** A pool with a worker averaging 5 s and a fresh worker
(average 0): selection returns the fresh worker, and the theorem yields
that its average is no larger than the seasoned worker's. -/
theorem get_available_worker_spec_witness :
    (⟨"w2", "t", 2, "idle", 0, 0, none, 0, 0, none⟩ : Worker).avg_response_time
      ≤ (⟨"w1", "t", 1, "idle", 0, 0, none, 2, 10, none⟩ : Worker).avg_response_time := by
  have hsel : get_available_worker 10
      ⟨[⟨"w1", "t", 1, "idle", 0, 0, none, 2, 10, none⟩,
        ⟨"w2", "t", 2, "idle", 0, 0, none, 0, 0, none⟩]⟩
      = some ⟨"w2", "t", 2, "idle", 0, 0, none, 0, 0, none⟩ := by
    norm_num [get_available_worker, Worker.is_healthy, minByAvg, Worker.avg_response_time]
  exact ((get_available_worker_spec 10
      ⟨[⟨"w1", "t", 1, "idle", 0, 0, none, 2, 10, none⟩,
        ⟨"w2", "t", 2, "idle", 0, 0, none, 0, 0, none⟩]⟩).1
      _ hsel).2.2.2 _ (by simp) rfl (by norm_num [Worker.is_healthy])

/-! ## C2: the health sweep -/

theorem unregister_workers_eq (st : WMState) (wid : String) :
    (unregister_worker st wid).2.workers
      = st.workers.filter (fun w => !(w.worker_id == wid)) := by
  unfold unregister_worker
  by_cases h : st.workers.any (fun w => w.worker_id == wid)
  · rw [if_pos h]
  · rw [if_neg h]
    simp only [List.any_eq_true, not_exists, not_and] at h
    symm
    apply List.filter_eq_self.mpr
    intro a ha
    simp only [Bool.not_eq_true']
    by_cases hc : (a.worker_id == wid) = true
    · exact absurd hc (by simpa using h a ha)
    · simpa using hc

theorem foldl_unregister (ids : List String) (st : WMState) :
    (ids.foldl (fun s i => (unregister_worker s i).2) st).workers
      = st.workers.filter (fun w => !(ids.contains w.worker_id)) := by
  induction ids generalizing st with
  | nil => simp
  | cons i rest ih =>
      rw [List.foldl_cons, ih, unregister_workers_eq, List.filter_filter]
      apply List.filter_congr
      intro w _
      rw [Bool.eq_iff_iff]
      simp [List.contains_cons, not_or, and_comm]

/-- **C2.** The claim says the sweep removes exactly the workers whose
heartbeat gap reaches the *configured* `worker_timeout_seconds` threshold.
Counterexample: with `worker_timeout_seconds = 60` configured, a worker
whose heartbeat gap is exactly 60 s is at the configured threshold, yet
`cleanup_unhealthy_workers` removes nothing and returns 0 — the health
check hardcodes 120 s and never consults the configured value. -/
theorem cleanup_unhealthy_ignores_configured_timeout :
    (60 : ℚ) - (⟨"w1", "t", 1, "idle", 0, 0, none, 0, 0, none⟩ : Worker).last_heartbeat
      ≥ (((⟨10, 60, true, ["t"]⟩ : WMConfig).worker_timeout_seconds : ℤ) : ℚ) ∧
    cleanup_unhealthy_workers 60 ⟨[⟨"w1", "t", 1, "idle", 0, 0, none, 0, 0, none⟩]⟩
      = (0, ⟨[⟨"w1", "t", 1, "idle", 0, 0, none, 0, 0, none⟩]⟩) := by
  constructor
  · norm_num
  · norm_num [cleanup_unhealthy_workers, Worker.is_healthy, unregister_worker]

/-- **C2 (amended).** On any pool whose live ids are distinct (the pool
invariant), the sweep removes exactly the workers with
`now − lastHeartbeat ≥ 120` — the 120-second threshold hardcoded in
`Worker.is_healthy`, with the boundary counting as unhealthy — removes no
others, and returns the number removed; the configured
`worker_timeout_seconds` plays no role. -/
theorem cleanup_unhealthy_spec (now : ℚ) (st : WMState) (hnd : st.ids.Nodup) :
    (cleanup_unhealthy_workers now st).1
      = (st.workers.filter (fun w => !(w.is_healthy now))).length ∧
    (cleanup_unhealthy_workers now st).2.workers
      = st.workers.filter (fun w => w.is_healthy now) ∧
    ∀ w ∈ st.workers,
      ((cleanup_unhealthy_workers now st).2.workers.contains w
        = !(decide (now - w.last_heartbeat ≥ 120))) := by
  have hmain : (cleanup_unhealthy_workers now st).2.workers
      = st.workers.filter (fun w => w.is_healthy now) := by
    unfold cleanup_unhealthy_workers
    rw [foldl_unregister]
    apply List.filter_congr
    intro w hw
    by_cases hh : w.is_healthy now = true
    · rw [hh]
      simp only [Bool.not_eq_true']
      rw [Bool.eq_false_iff]
      intro hcontains
      rw [List.contains_eq_any_beq, List.any_eq_true] at hcontains
      obtain ⟨j, hj, hbeq⟩ := hcontains
      obtain ⟨x, hxf, hxid⟩ := List.mem_map.mp hj
      have hx := List.mem_filter.mp hxf
      have hxw : x = w := by
        apply List.inj_on_of_nodup_map hnd hx.1 hw
        rw [hxid]
        exact (beq_iff_eq.mp hbeq).symm
      rw [hxw] at hx
      rw [hh] at hx
      simpa using hx.2
    · rw [Bool.not_eq_true] at hh
      rw [hh]
      simp only [Bool.not_eq_false']
      rw [List.contains_eq_any_beq, List.any_eq_true]
      refine ⟨w.worker_id, List.mem_map.mpr ⟨w, List.mem_filter.mpr ⟨hw, by simp [hh]⟩, rfl⟩,
        by simp⟩
  refine ⟨by simp [cleanup_unhealthy_workers], hmain, ?_⟩
  intro w hw
  rw [hmain]
  by_cases hh : w.is_healthy now = true
  · have h120 : ¬(now - w.last_heartbeat ≥ 120) := by
      have := of_decide_eq_true hh
      unfold Worker.is_healthy at hh
      rw [decide_eq_true_iff] at hh
      linarith
    rw [decide_eq_false h120]
    simp only [Bool.not_false]
    rw [List.contains_eq_any_beq, List.any_eq_true]
    exact ⟨w, List.mem_filter.mpr ⟨hw, hh⟩, by simp⟩
  · rw [Bool.not_eq_true] at hh
    have h120 : now - w.last_heartbeat ≥ 120 := by
      unfold Worker.is_healthy at hh
      rw [decide_eq_false_iff_not] at hh
      linarith
    rw [decide_eq_true h120]
    simp only [Bool.not_true]
    rw [Bool.eq_false_iff]
    intro hcontains
    rw [List.contains_eq_any_beq, List.any_eq_true] at hcontains
    obtain ⟨x, hx, hbeq⟩ := hcontains
    have hxw : x = w := (beq_iff_eq.mp hbeq).symm
    rw [hxw] at hx
    have := (List.mem_filter.mp hx).2
    rw [hh] at this
    simp at this

/-- **C2 (amended, witness).** Swept at `t = 130`: the worker whose last
heartbeat was at `t = 0` (gap 130 ≥ 120) is removed, the one that beat at
`t = 100` (gap 30) survives. -/
theorem cleanup_unhealthy_spec_witness :
    (cleanup_unhealthy_workers 130
      ⟨[⟨"a", "t", 1, "idle", 0, 0, none, 0, 0, none⟩,
        ⟨"b", "t", 2, "idle", 0, 100, none, 0, 0, none⟩]⟩).2.workers
      = [⟨"b", "t", 2, "idle", 0, 100, none, 0, 0, none⟩] := by
  have h := (cleanup_unhealthy_spec 130
      ⟨[⟨"a", "t", 1, "idle", 0, 0, none, 0, 0, none⟩,
        ⟨"b", "t", 2, "idle", 0, 100, none, 0, 0, none⟩]⟩
      (by simp [WMState.ids])).2.1
  rw [h]
  norm_num [Worker.is_healthy]

/-! ## C7, C8: registration -/

theorem any_id_eq_mem_ids (l : List Worker) (wid : String) :
    l.any (fun w => w.worker_id == wid) = true ↔ wid ∈ l.map (fun w => w.worker_id) := by
  rw [List.any_eq_true, List.mem_map]
  constructor
  · rintro ⟨w, hw, hbeq⟩
    exact ⟨w, hw, beq_iff_eq.mp hbeq⟩
  · rintro ⟨w, hw, hid⟩
    exact ⟨w, hw, by simp [hid]⟩

/-- **C7.** `register_worker` succeeds iff the pool is strictly below
`max_workers`, the id is not yet registered and the token authenticates;
on success it appends exactly one fresh idle worker with
`connected_at = last_heartbeat = now` and empty counters; on failure the
pool is unchanged.  Moreover, for a pool exactly at capacity — where a
fresh authenticated id is rejected — unregistering any live worker frees
capacity and the same registration then succeeds. -/
theorem register_worker_spec (cfg : WMConfig) (now now' : ℚ) (st : WMState)
    (wid tok : String) (ws : ℕ) (wid' : String) :
    ((register_worker cfg now st wid tok ws).1.1 = true ↔
        (st.workers.length < cfg.max_workers ∧ wid ∉ st.ids ∧
         authenticate_worker cfg tok = true)) ∧
    ((register_worker cfg now st wid tok ws).1.1 = true →
        (register_worker cfg now st wid tok ws).2.workers
          = st.workers ++ [{ worker_id := wid, auth_token := tok, websocket := ws,
                             status := "idle", connected_at := now, last_heartbeat := now,
                             current_request_id := none, requests_processed := 0,
                             total_processing_time := 0, last_error := none }]) ∧
    ((register_worker cfg now st wid tok ws).1.1 = false →
        (register_worker cfg now st wid tok ws).2 = st) ∧
    ((st.workers.length = cfg.max_workers ∧ wid' ∈ st.ids ∧ wid ∉ st.ids ∧
      authenticate_worker cfg tok = true) →
        (register_worker cfg now st wid tok ws).1.1 = false ∧
        (register_worker cfg now' (unregister_worker st wid').2 wid tok ws).1.1 = true) := by
  have hids : st.workers.any (fun w => w.worker_id == wid) = true ↔ wid ∈ st.ids :=
    any_id_eq_mem_ids st.workers wid
  refine ⟨?_, ?_, ?_, ?_⟩
  · unfold register_worker
    by_cases h1 : st.workers.length ≥ cfg.max_workers
    · rw [if_pos h1]
      simp only [show ¬(st.workers.length < cfg.max_workers) from not_lt.mpr h1]
      simp
    · rw [if_neg h1]
      by_cases h2 : st.workers.any (fun w => w.worker_id == wid) = true
      · rw [if_pos h2]
        simp [hids.mp h2]
      · rw [if_neg h2]
        by_cases h3 : authenticate_worker cfg tok = true
        · rw [if_neg (by simp [h3])]
          exact iff_of_true rfl ⟨not_le.mp h1, fun h => h2 (hids.mpr h), h3⟩
        · rw [if_pos (by simp [Bool.not_eq_true] at h3 ⊢; exact h3)]
          simp [h3]
  · intro hok
    unfold register_worker at hok ⊢
    by_cases h1 : st.workers.length ≥ cfg.max_workers
    · rw [if_pos h1] at hok; simp at hok
    · rw [if_neg h1] at hok ⊢
      by_cases h2 : st.workers.any (fun w => w.worker_id == wid) = true
      · rw [if_pos h2] at hok; simp at hok
      · rw [if_neg h2] at hok ⊢
        by_cases h3 : authenticate_worker cfg tok = true
        · rw [if_neg (by simp [h3])]
        · rw [if_pos (by simp [Bool.not_eq_true] at h3 ⊢; exact h3)] at hok
          simp at hok
  · intro hfail
    unfold register_worker at hfail ⊢
    by_cases h1 : st.workers.length ≥ cfg.max_workers
    · rw [if_pos h1]
    · rw [if_neg h1] at hfail ⊢
      by_cases h2 : st.workers.any (fun w => w.worker_id == wid) = true
      · rw [if_pos h2]
      · rw [if_neg h2] at hfail ⊢
        by_cases h3 : authenticate_worker cfg tok = true
        · rw [if_neg (by simp [h3])] at hfail
          simp at hfail
        · rw [if_pos (by simp [Bool.not_eq_true] at h3 ⊢; exact h3)]
  · rintro ⟨hcap, hmem', hnotmem, hauth⟩
    constructor
    · unfold register_worker
      rw [if_pos (le_of_eq hcap.symm)]
    · obtain ⟨x, hx, hxid⟩ := List.mem_map.mp hmem'
      have hlt : (unregister_worker st wid').2.workers.length < cfg.max_workers := by
        rw [unregister_workers_eq, ← hcap]
        apply List.length_filter_lt_length_iff_exists.mpr
        exact ⟨x, hx, by simp [hxid]⟩
      have hnodup : ¬((unregister_worker st wid').2.workers.any
          (fun w => w.worker_id == wid) = true) := by
        rw [unregister_workers_eq]
        intro hc
        obtain ⟨y, hy, hybeq⟩ := List.any_eq_true.mp hc
        exact hnotmem (List.mem_map.mpr
          ⟨y, List.mem_of_mem_filter hy, beq_iff_eq.mp hybeq⟩)
      unfold register_worker
      rw [if_neg (not_le.mpr hlt), if_neg hnodup, if_neg (by simp [hauth])]

/-- **C7 (witness).** The spec scenario with `max_workers = 1`: registering
`"w2"` into a full pool fails; after unregistering `"w1"`, the same
registration succeeds. -/
theorem register_worker_spec_witness :
    (register_worker ⟨1, 120, true, ["token"]⟩ 2
        ⟨[⟨"w1", "token", 1, "idle", 0, 0, none, 0, 0, none⟩]⟩
        "w2" "token" 2).1.1 = false ∧
    (register_worker ⟨1, 120, true, ["token"]⟩ 3
        (unregister_worker ⟨[⟨"w1", "token", 1, "idle", 0, 0, none, 0, 0, none⟩]⟩ "w1").2
        "w2" "token" 2).1.1 = true :=
  (register_worker_spec ⟨1, 120, true, ["token"]⟩ 2 3
      ⟨[⟨"w1", "token", 1, "idle", 0, 0, none, 0, 0, none⟩]⟩
      "w2" "token" 2 "w1").2.2.2
    ⟨rfl, by simp [WMState.ids], by simp [WMState.ids], rfl⟩

theorem applyOp_preserves (cfg : WMConfig) (st : WMState) (op : WMOp)
    (h : st.workers.length ≤ cfg.max_workers ∧ st.ids.Nodup) :
    (applyOp cfg st op).workers.length ≤ cfg.max_workers ∧
    (applyOp cfg st op).ids.Nodup := by
  cases op with
  | register now wid tok ws =>
      simp only [applyOp]
      unfold register_worker
      by_cases h1 : st.workers.length ≥ cfg.max_workers
      · rw [if_pos h1]; exact h
      · rw [if_neg h1]
        by_cases h2 : st.workers.any (fun w => w.worker_id == wid) = true
        · rw [if_pos h2]; exact h
        · rw [if_neg h2]
          by_cases h3 : authenticate_worker cfg tok = true
          · rw [if_neg (by simp [h3])]
            refine ⟨by simpa using Nat.succ_le_of_lt (not_le.mp h1), ?_⟩
            simp only [WMState.ids]
            rw [List.map_append, List.nodup_append]
            refine ⟨h.2, by simp, ?_⟩
            intro a ha hb
            simp only [List.map_cons, List.map_nil, List.mem_singleton] at hb
            exact h2 ((any_id_eq_mem_ids st.workers wid).mpr (hb ▸ ha))
          · rw [if_pos (by simp [Bool.not_eq_true] at h3 ⊢; exact h3)]; exact h
  | unregister wid =>
      simp only [applyOp]
      constructor
      · rw [unregister_workers_eq]
        exact le_trans (List.Sublist.length_le (List.filter_sublist st.workers)) h.1
      · simp only [WMState.ids]
        rw [unregister_workers_eq]
        exact List.Nodup.sublist
          (List.Sublist.map _ (List.filter_sublist st.workers)) h.2

/-- **C8.** For every sequence of register/unregister operations starting
from the empty pool, the number of live workers never exceeds
`max_workers` and no two live workers share an id. -/
theorem pool_invariant (cfg : WMConfig) (ops : List WMOp) :
    (runOps cfg ops).workers.length ≤ cfg.max_workers ∧
    (runOps cfg ops).ids.Nodup := by
  unfold runOps
  suffices H : ∀ st : WMState, st.workers.length ≤ cfg.max_workers ∧ st.ids.Nodup →
      (ops.foldl (applyOp cfg) st).workers.length ≤ cfg.max_workers ∧
      (ops.foldl (applyOp cfg) st).ids.Nodup by
    exact H { workers := [] } ⟨by simp, by simp [WMState.ids]⟩
  induction ops with
  | nil => intro st h; simpa using h
  | cons op rest ih =>
      intro st h
      rw [List.foldl_cons]
      exact ih _ (applyOp_preserves cfg st op h)

/-! ## C9: markBusy then markIdle -/

theorem find?_update_worker (l : List Worker) (wid : String) (g : Worker → Worker)
    (hg : ∀ x, (g x).worker_id = x.worker_id) (w : Worker)
    (h : l.find? (fun x => x.worker_id == wid) = some w) :
    (l.map (fun x => if x.worker_id == wid then g x else x)).find?
        (fun x => x.worker_id == wid) = some (g w) := by
  induction l with
  | nil => simp at h
  | cons y ys ih =>
      by_cases hy : (y.worker_id == wid) = true
      · rw [List.find?_cons_of_pos (p := fun x : Worker => x.worker_id == wid) _ hy] at h
        obtain rfl : y = w := by simpa using h
        simp only [List.map_cons, if_pos hy]
        rw [List.find?_cons_of_pos (p := fun x : Worker => x.worker_id == wid) _
          (by simp only [hg]; exact hy)]
      · rw [List.find?_cons_of_neg (p := fun x : Worker => x.worker_id == wid) _ hy] at h
        simp only [List.map_cons, if_neg hy]
        rw [List.find?_cons_of_neg (p := fun x : Worker => x.worker_id == wid) _ hy]
        exact ih h

theorem any_of_find?_worker (l : List Worker) (wid : String) (w : Worker)
    (h : l.find? (fun x => x.worker_id == wid) = some w) :
    l.any (fun x => x.worker_id == wid) = true := by
  have hp := List.find?_some h
  exact List.any_eq_true.mpr ⟨w, List.mem_of_find?_eq_some h, hp⟩

/-- **C9.** For a registered worker `w`, `mark_worker_busy` followed by
`mark_worker_idle` with processing time `t` both report success; the
worker's record afterwards has status `"idle"`, a cleared
`current_request_id`, `requests_processed` incremented by exactly one and
`total_processing_time` increased by exactly `t`; and its recomputed
`avg_response_time` equals `totalProcessingTime / requestsProcessed` for
the updated counters. -/
theorem mark_busy_idle_spec (st : WMState) (wid rid : String) (t : ℚ)
    (err : Option String) (w : Worker) (h : st.findWorker wid = some w) :
    (mark_worker_busy st wid rid).1 = true ∧
    (mark_worker_idle (mark_worker_busy st wid rid).2 wid t err).1 = true ∧
    (mark_worker_idle (mark_worker_busy st wid rid).2 wid t err).2.findWorker wid
      = some { w with
               status := "idle"
               current_request_id := none
               requests_processed := w.requests_processed + 1
               total_processing_time := w.total_processing_time + t
               last_error := err } ∧
    Worker.avg_response_time
        { w with
          status := "idle"
          current_request_id := none
          requests_processed := w.requests_processed + 1
          total_processing_time := w.total_processing_time + t
          last_error := err }
      = (w.total_processing_time + t) / ((w.requests_processed : ℚ) + 1) := by
  have hany : st.workers.any (fun x => x.worker_id == wid) = true :=
    any_of_find?_worker st.workers wid w h
  have hbusy2 : (mark_worker_busy st wid rid).2.workers
      = st.workers.map (fun x => if x.worker_id == wid then
          { x with status := "busy", current_request_id := some rid } else x) := by
    unfold mark_worker_busy
    rw [if_pos hany]
  have hfind1 : (mark_worker_busy st wid rid).2.findWorker wid
      = some { w with status := "busy", current_request_id := some rid } := by
    unfold WMState.findWorker
    rw [hbusy2]
    exact find?_update_worker st.workers wid
      (fun x => { x with status := "busy", current_request_id := some rid })
      (fun _ => rfl) w h
  have hany1 : (mark_worker_busy st wid rid).2.workers.any
      (fun x => x.worker_id == wid) = true :=
    any_of_find?_worker _ wid _ hfind1
  have hidle2 : (mark_worker_idle (mark_worker_busy st wid rid).2 wid t err).2.workers
      = (mark_worker_busy st wid rid).2.workers.map (fun x =>
          if x.worker_id == wid then
            { x with status := "idle",
                     requests_processed := x.requests_processed + 1,
                     total_processing_time := x.total_processing_time + t,
                     current_request_id := none,
                     last_error := err }
          else x) := by
    unfold mark_worker_idle
    rw [if_pos hany1]
  refine ⟨by unfold mark_worker_busy; rw [if_pos hany], ?_, ?_, ?_⟩
  · unfold mark_worker_idle
    rw [if_pos hany1]
  · unfold WMState.findWorker
    rw [hidle2]
    exact find?_update_worker (mark_worker_busy st wid rid).2.workers wid
      (fun x =>
        { x with status := "idle",
                 requests_processed := x.requests_processed + 1,
                 total_processing_time := x.total_processing_time + t,
                 current_request_id := none,
                 last_error := err })
      (fun _ => rfl)
      { w with status := "busy", current_request_id := some rid } hfind1
  · unfold Worker.avg_response_time
    simp

/-- **C9 (witness).** One completed request of 2.5 s on a fresh worker:
the final lookup reports `avg_response_time = 2.5`. -/
theorem mark_busy_idle_spec_witness :
    ((mark_worker_idle
        (mark_worker_busy ⟨[⟨"w1", "t", 7, "idle", 0, 0, none, 0, 0, none⟩]⟩ "w1" "r1").2
        "w1" (5/2) none).2.findWorker "w1").map Worker.avg_response_time
      = some (5/2) := by
  have h := mark_busy_idle_spec ⟨[⟨"w1", "t", 7, "idle", 0, 0, none, 0, 0, none⟩]⟩
      "w1" "r1" (5/2) none ⟨"w1", "t", 7, "idle", 0, 0, none, 0, 0, none⟩
      (by norm_num [WMState.findWorker, List.find?])
  rw [h.2.2.1]
  simp only [Option.map_some', h.2.2.2]
  norm_num

end NunuCloud
